import Mathlib

/-!
Verification development for the dex OAuth2/OIDC authorization-flow core.

The `db` session serialization layer (`sessionModel.session`, `newSessionModel`,
`SessionRepo.Get`) is embedded directly from the source. The protocol handlers
(`handleAuthFunc`, `handleTokenFunc`, `validateScopes`, `Client.ValidRedirectURL`,
the session-key store) exist in the repository only through their tests, so they
are modelled from the specification and constrained by those tests.

Go strings are modelled as Lean `String`, Go `time.Time` as `Int` Unix seconds
(Go's zero time instant is the constant `goZeroTimeUnix`), Go `url.URL` as the
structure `GoURL` with a real render/parse pair, and JSON blob columns as the
parsed values they encode (serialization of well-formed values is lossless, and
every claim that depends on a blob assumes it decodes).
-/

/-- Decidable equality for `Except`, needed so witnesses can be checked by `decide`. -/
instance {ε α : Type} [DecidableEq ε] [DecidableEq α] : DecidableEq (Except ε α) := fun a b =>
  match a, b with
  | .ok x, .ok y => decidable_of_iff (x = y) (by simp)
  | .error e, .error f => decidable_of_iff (e = f) (by simp)
  | .ok _, .error _ => .isFalse (fun h => Except.noConfusion h)
  | .error _, .ok _ => .isFalse (fun h => Except.noConfusion h)

/-- `true` iff an `Except` value is a success. -/
def excIsOk {ε α : Type} : Except ε α → Bool
  | .ok _ => true
  | .error _ => false

/-- Pack a character list back into a string. -/
def charsToStr (cs : List Char) : String := String.mk cs

/-- `hasLead pre l`: `pre` is a leading segment of `l` (Go `strings.HasPrefix` on rune lists). -/
def hasLead : List Char → List Char → Bool
  | [], _ => true
  | _ :: _, [] => false
  | p :: ps, c :: cs => p == c && hasLead ps cs

/-- Go `strings.HasPrefix` on strings. -/
def strHasLead (pre s : String) : Bool := hasLead pre.data s.data

/-- Split a character list at the first occurrence of `sep`, returning the part
before and the part after (the separator removed); `none` when `sep` does not occur. -/
def breakAt (sep : List Char) : List Char → Option (List Char × List Char)
  | [] => none
  | c :: cs =>
    if hasLead sep (c :: cs) then some ([], (c :: cs).drop sep.length)
    else match breakAt sep cs with
      | some (pre, post) => some (c :: pre, post)
      | none => none

/-- Split a character list at every character satisfying `p`, keeping empty segments
(the splitting core of Go `strings.Fields`). -/
def splitWhen (p : Char → Bool) : List Char → List (List Char)
  | [] => [[]]
  | c :: cs =>
    if p c then [] :: splitWhen p cs
    else match splitWhen p cs with
      | [] => [[c]]
      | t :: ts => (c :: t) :: ts

/-- Go `strings.Fields`: split around runs of whitespace, dropping empty fields. -/
def stringsFields (s : String) : List String :=
  ((splitWhen (fun c => c.isWhitespace) s.data).filter (fun t => !t.isEmpty)).map charsToStr

/-- Join character lists with a single space between them. -/
def joinWithSpace : List (List Char) → List Char
  | [] => []
  | [t] => t
  | t :: ts => t ++ ' ' :: joinWithSpace ts

/-- Go `strings.Join(ts, " ")`. -/
def stringsJoin (ts : List String) : String :=
  charsToStr (joinWithSpace (ts.map String.data))

/-- Go `url.URL`, restricted to the shapes this system produces: either an
ordinary `scheme://host/path` URL (`opq = ""`) or an opaque `scheme:opq` URN. -/
structure GoURL where
  scheme : String
  host : String
  path : String
  opq : String
deriving DecidableEq, Repr

/-- Go `url.URL.String()` for the URL shapes of `GoURL`. -/
def urlString (u : GoURL) : String :=
  if u.opq ≠ "" then u.scheme ++ ":" ++ u.opq
  else u.scheme ++ "://" ++ u.host ++ u.path

/-- Go `url.Parse` for the URL shapes of `GoURL`: split `scheme://host/path`,
falling back to an opaque `scheme:rest` form; `none` when neither shape fits. -/
def parseURL (s : String) : Option GoURL :=
  match breakAt (String.data "://") s.data with
  | some (sc, rest) =>
    match breakAt [ '/' ] rest with
    | some (h, p) => some ⟨charsToStr sc, charsToStr h, charsToStr ( '/' :: p), ""⟩
    | none => some ⟨charsToStr sc, charsToStr rest, "", ""⟩
  | none =>
    match breakAt [ ':' ] s.data with
    | some (sc, op) => some ⟨charsToStr sc, "", "", charsToStr op⟩
    | none => none

/-- The fixed out-of-band redirect sentinel `urn:ietf:wg:oauth:2.0:oob`. -/
def OOBRedirectURI : GoURL := ⟨"urn", "", "", "ietf:wg:oauth:2.0:oob"⟩

/-- A registered OAuth2 client: credentials, registered redirect URLs, the
public-client flag, and trusted-peer IDs for cross-client authorization. -/
structure Client where
  id : String
  secret : String
  redirectURIs : List GoURL
  public : Bool
  trustedPeers : List String
deriving DecidableEq, Repr

/-- Modelled from the spec: a localhost-loopback redirect URL for public clients
(an `http` URL whose host is `localhost` or `localhost:<port>`, with no extra path). -/
def isLocalhostRedirectURL (u : GoURL) : Bool :=
  u.opq == "" && u.scheme == "http" &&
    (u.host == "localhost" || hasLead (String.data "localhost:") u.host.data) &&
    u.path == ""

/-- Modelled from the spec: `Client.ValidRedirectURL` (the implementation is not in
`src/`, only its tests). A public client accepts exactly the out-of-band sentinel
or a localhost-loopback URL and requires the URL to be supplied. A non-public
client with no URL supplied resolves to its single registered URL (failing when it
has zero or several); a supplied URL must be a member of the registered list. -/
def Client.validRedirectURL (cli : Client) (u : Option GoURL) : Except String GoURL :=
  if cli.public then
    match u with
    | none => .error "invalid redirect URL"
    | some u =>
      if u = OOBRedirectURI then .ok u
      else if isLocalhostRedirectURL u then .ok u
      else .error "invalid redirect URL"
  else
    match u with
    | none =>
      match cli.redirectURIs with
      | [r] => .ok r
      | _ => .error "invalid redirect URL"
    | some u => if cli.redirectURIs.contains u then .ok u else .error "invalid redirect URL"

/-- The fixed recognized scope set (`openid`, `offline_access`, `email`, `profile`, `groups`). -/
def knownScopes : List String := ["openid", "offline_access", "email", "profile", "groups"]

/-- `scope.ScopeGoogleCrossClient`: the cross-client-authorization scope token lead. -/
def scopeGoogleCrossClient : String := "audience:server:client_id:"

/-- The target client IDs named by the cross-client-authorization tokens of a scope list. -/
def crossClientTargets (scopes : List String) : List String :=
  scopes.filterMap (fun s =>
    if strHasLead scopeGoogleCrossClient s then
      some (charsToStr (s.data.drop scopeGoogleCrossClient.data.length))
    else none)

/-- `true` iff the list names some element twice. -/
def hasDup : List String → Bool
  | [] => false
  | x :: xs => xs.contains x || hasDup xs

/-- Modelled from the spec: a cross-client-authorization target is allowed when it is
the requesting client itself, or a known client listing the requester as a trusted peer. -/
def crossClientAllowed (clients : List Client) (clientID target : String) : Bool :=
  target == clientID ||
    (match clients.find? (fun c => c.id == target) with
     | some t => t.trustedPeers.contains clientID
     | none => false)

/-- Modelled from the spec: `validateScopes` (the implementation is not in `src/`,
only its tests). The scope list must contain `openid`; every token must be in the
fixed recognized set or carry the cross-client lead; cross-client targets must not
repeat; and each target must be allowed for the requesting client. -/
def validateScopes (clients : List Client) (clientID : String) (scopes : List String) :
    Except String Unit :=
  if !(scopes.contains "openid") then .error "invalid_request"
  else if !(scopes.all (fun s => knownScopes.contains s || strHasLead scopeGoogleCrossClient s)) then
    .error "invalid_request"
  else if hasDup (crossClientTargets scopes) then .error "invalid_request"
  else if !((crossClientTargets scopes).all (crossClientAllowed clients clientID)) then
    .error "invalid_request"
  else .ok ()

/-- The acceptance condition claimed for scope validation, following the claim's words:
`openid` present, every token recognized or cross-client-prefixed, and no two
cross-client tokens naming the same target. -/
def claimC6ScopeAccept (scopes : List String) : Bool :=
  scopes.contains "openid" &&
    scopes.all (fun s => knownScopes.contains s || strHasLead scopeGoogleCrossClient s) &&
    !hasDup (crossClientTargets scopes)

/-- A registered connector, reduced to the capability the auth handler consumes:
its ID and the login URL it returns. -/
structure Connector where
  id : String
  loginURL : String
deriving DecidableEq, Repr

/-- The server state consumed by the authorization handler: the client manager's
clients and the registered connectors. -/
structure ServerState where
  clients : List Client
  connectors : List Connector
deriving DecidableEq, Repr

/-- Client-manager lookup by client ID. -/
def findClient (srv : ServerState) (cid : String) : Option Client :=
  srv.clients.find? (fun c => c.id == cid)

/-- An authorization-endpoint request after query parsing. -/
structure AuthRequest where
  method : String
  clientId : String
  redirectUri : Option GoURL
  responseType : String
  scopes : List String
  state : String
  connectorId : String
deriving DecidableEq, Repr

/-- An HTTP response, reduced to the observables the claims constrain: status
class, error body, and redirect target with query parameters. -/
inductive Response where
  | methodNotAllowed
  | badRequest (error : String)
  | unauthorized (error : String)
  | redirect (u : GoURL) (params : List (String × String))
  | redirectStr (location : String)
  | okJSON (body : String)
deriving DecidableEq, Repr

/-- The HTTP status code of a `Response`. -/
def Response.statusCode : Response → Nat
  | .methodNotAllowed => 405
  | .badRequest _ => 400
  | .unauthorized _ => 401
  | .redirect _ _ => 302
  | .redirectStr _ => 302
  | .okJSON _ => 200

/-- `true` iff the response is an HTTP 302 redirect. -/
def Response.isRedirect : Response → Bool
  | .redirect _ _ => true
  | .redirectStr _ => true
  | _ => false

/-- Modelled from the spec: `handleAuthFunc` (the implementation is not in `src/`,
only its tests). Validation order per the spec: method, client, redirect URL
(failures so far are 400 with no redirect), then response_type (failure is an
`unsupported_response_type` redirect-back with the echoed state), then scope
(a missing `openid` is an immediate 400 even though the redirect URL is known;
other scope failures redirect back), then connector lookup. On success the user
agent is redirected to the connector's login URL. The registration-flow redirect
is elided: no claim depends on it. -/
def handleAuth (srv : ServerState) (req : AuthRequest) : Response :=
  if req.method ≠ "GET" then .methodNotAllowed
  else if req.clientId = "" then .badRequest "invalid_request"
  else match findClient srv req.clientId with
  | none => .badRequest "invalid_request"
  | some cli =>
    match cli.validRedirectURL req.redirectUri with
    | .error _ => .badRequest "invalid_request"
    | .ok ru =>
      if req.responseType ≠ "code" then
        .redirect ru [("error", "unsupported_response_type"), ("state", req.state)]
      else if !(req.scopes.contains "openid") then .badRequest "invalid_request"
      else match validateScopes srv.clients req.clientId req.scopes with
      | .error _ => .redirect ru [("error", "invalid_request"), ("state", req.state)]
      | .ok _ =>
        match srv.connectors.find? (fun c => c.id == req.connectorId) with
        | none => .badRequest "invalid_request"
        | some c => .redirectStr c.loginURL

/-- A session key pushed into the one-time store: the opaque key, the session ID
it resolves to, and its absolute expiry. -/
structure KeyEntry where
  key : String
  sessionID : String
  expiresAt : Int
deriving DecidableEq, Repr

/-- A `session.SessionKey`: opaque key and session ID back-reference. -/
structure SessionKey where
  key : String
  sessionID : String
deriving DecidableEq, Repr

/-- Modelled from the spec: `SessionKeyRepo.Push` (the implementation is not in
`src/`, only its tests): store the key with its absolute expiry instant. -/
def pushSessionKey (ks : List KeyEntry) (sk : SessionKey) (expiresAt : Int) : List KeyEntry :=
  ⟨sk.key, sk.sessionID, expiresAt⟩ :: ks

/-- Modelled from the spec: `SessionKeyRepo.Pop` (the implementation is not in
`src/`, only its tests): an atomic destructive take. The key is removed from the
store regardless of outcome; the session ID is returned only when the key was
present and unexpired, and an expired or absent key yields the same error. -/
def popSessionKey (ks : List KeyEntry) (k : String) (now : Int) :
    Except String String × List KeyEntry :=
  match ks.find? (fun e => e.key == k) with
  | none => (.error "session key does not exist", ks)
  | some e =>
    let ks' := ks.filter (fun e' => !(e'.key == k))
    if e.expiresAt < now then (.error "session key does not exist", ks')
    else (.ok e.sessionID, ks')

/-- `oidc.Identity`: the verified identity claims attached to a session. -/
structure Identity where
  userID : String
  name : String
  email : String
  expiresAt : Int
deriving DecidableEq, Repr

/-- Unix seconds of Go's zero `time.Time` instant (January 1, year 1, UTC). -/
def goZeroTimeUnix : Int := -62135596800

/-- `session.Session`: one authentication attempt. Times are `Int` Unix seconds
with `goZeroTimeUnix` as the zero instant. -/
structure Session where
  id : String
  state : String
  createdAt : Int
  expiresAt : Int
  clientID : String
  clientState : String
  redirectURL : GoURL
  identity : Identity
  connectorID : String
  userID : String
  register : Bool
  nonce : String
  scope : List String
  groups : Option (List String)
deriving DecidableEq, Repr

/-- The `session` database row (`sessionModel` in `db`): times are raw `int64`
columns (0 when the session's time was the zero instant), the redirect URL is its
string rendering, the scope list is space-joined, the identity blob holds the
marshalled `oidc.Identity` (modelled as the parsed value), and the groups column
is `none` for the empty string and otherwise the decoded JSON list. -/
structure sessionModel where
  id : String
  state : String
  createdAt : Int
  expiresAt : Int
  clientID : String
  clientState : String
  redirectURL : String
  identity : Identity
  connectorID : String
  userID : String
  register : Bool
  nonce : String
  scope : String
  groups : Option (List String)
deriving DecidableEq, Repr

/-- `sessionModel.session`: convert a database row back to a `session.Session`.
`url.Parse` failure aborts; the identity blob decodes to its value (the source's
zero-`ExpiresAt` renormalization is the identity here); a zero time column leaves
the session time at the zero instant; the scope column is split with
`strings.Fields`; an empty groups column leaves `Groups` nil. -/
def sessionModel.session (s : sessionModel) : Except String Session :=
  match parseURL s.redirectURL with
  | none => .error "invalid redirect URL"
  | some ru => .ok
    { id := s.id
      state := s.state
      createdAt := if s.createdAt ≠ 0 then s.createdAt else goZeroTimeUnix
      expiresAt := if s.expiresAt ≠ 0 then s.expiresAt else goZeroTimeUnix
      clientID := s.clientID
      clientState := s.clientState
      redirectURL := ru
      identity := s.identity
      connectorID := s.connectorID
      userID := s.userID
      register := s.register
      nonce := s.nonce
      scope := stringsFields s.scope
      groups := s.groups }

/-- `newSessionModel`: convert a `session.Session` to its database row. The
identity always marshals (so unlike the source this is total), the redirect URL
is rendered with `String()`, the scope list is joined with single spaces, and a
zero-instant time is stored as the column value 0. -/
def newSessionModel (s : Session) : sessionModel :=
  { id := s.id
    state := s.state
    createdAt := if s.createdAt = goZeroTimeUnix then 0 else s.createdAt
    expiresAt := if s.expiresAt = goZeroTimeUnix then 0 else s.expiresAt
    clientID := s.clientID
    clientState := s.clientState
    redirectURL := urlString s.redirectURL
    identity := s.identity
    connectorID := s.connectorID
    userID := s.userID
    register := s.register
    nonce := s.nonce
    scope := stringsJoin s.scope
    groups := s.groups }

/-- `SessionRepo.Get`: look the row up by primary key (the gorp executor is
modelled as an association list, so the model type always matches); an absent row
is "session does not exist"; a row whose conversion fails propagates that error;
a session whose `ExpiresAt` is strictly before the clock's now is reported with
the same "session does not exist" error. -/
def SessionRepo.get (dbase : List (String × sessionModel)) (now : Int) (sessionID : String) :
    Except String Session :=
  match dbase.find? (fun p => p.1 == sessionID) with
  | none => .error "session does not exist"
  | some (_, sm) =>
    match sm.session with
    | .error e => .error e
    | .ok ses =>
      if ses.expiresAt < now then .error "session does not exist"
      else .ok ses

/-- Session-state names (modelled: the spec's `New`/`Identified`/`Authenticated`/`Dead`). -/
def sessionStateAuthenticated : String := "authenticated"

/-- The server state consumed by the token handler: clients, the one-time
session-key store, the session store, and the clock's current instant. -/
structure TokenServer where
  clients : List Client
  keyStore : List KeyEntry
  sessions : List (String × Session)
  now : Int
deriving Repr

/-- A token-endpoint request: method, HTTP Basic client credentials, and the
`grant_type`/`code`/`state` form fields. -/
structure TokenRequest where
  method : String
  hasBasicAuth : Bool
  authUser : String
  authSecret : String
  grantType : String
  code : String
  state : String
deriving DecidableEq, Repr

/-- Modelled from the spec: Basic-Auth client authentication against the client
manager; succeeds only for a known client ID with the matching secret. -/
def authenticateClient (clients : List Client) (req : TokenRequest) : Option Client :=
  if !req.hasBasicAuth then none
  else match clients.find? (fun c => c.id == req.authUser) with
  | none => none
  | some cli => if cli.secret == req.authSecret then some cli else none

/-- Modelled from the spec: `handleTokenFunc` (the implementation is not in
`src/`, only its tests). Order per the spec: non-POST is 405; a grant type other
than `authorization_code` is 400; an empty code is 400; failed client
authentication is 401 before the code is ever examined; then the one-time key is
popped and the session checked (existence, ownership, `Authenticated` state,
freshness), any failure being the same 400; on success a signed ID token is
returned (token minting itself is outside every claim and abstracted to the
response body). -/
def handleToken (srv : TokenServer) (req : TokenRequest) : Response :=
  if req.method ≠ "POST" then .methodNotAllowed
  else if req.grantType ≠ "authorization_code" then .badRequest "unsupported_grant_type"
  else if req.code = "" then .badRequest "invalid_request"
  else match authenticateClient srv.clients req with
  | none => .unauthorized "invalid_client"
  | some cli =>
    match popSessionKey srv.keyStore req.code srv.now with
    | (.error _, _) => .badRequest "invalid_grant"
    | (.ok sid, _) =>
      match srv.sessions.find? (fun p => p.1 == sid) with
      | none => .badRequest "invalid_grant"
      | some (_, ses) =>
        if ses.clientID ≠ cli.id then .badRequest "invalid_grant"
        else if ses.state ≠ sessionStateAuthenticated then .badRequest "invalid_grant"
        else if ses.expiresAt < srv.now then .badRequest "invalid_grant"
        else .okJSON "id_token"

/-- Modelled from the spec: the discovery endpoint handler; GET-only, 405
otherwise, serving the fixed provider-metadata JSON. -/
def handleDiscovery (cfg : String) (method : String) : Response :=
  if method ≠ "GET" then .methodNotAllowed else .okJSON cfg

/-- Modelled from the spec: the keys endpoint handler; GET-only, 405 otherwise,
serving the current JWKS JSON. -/
def handleKeys (jwks : String) (method : String) : Response :=
  if method ≠ "GET" then .methodNotAllowed else .okJSON jwks

/-- The callback redirect URL used by the concrete test fixtures. -/
def cbURL : GoURL := ⟨"http", "client.example.com", "/callback", ""⟩

/-- A confidential client with a single registered redirect URL. -/
def testClient : Client := ⟨"client.example.com", "c2VjcmV0", [cbURL], false, []⟩

/-- Authorization-handler fixture: one confidential client, one fake connector. -/
def authFixture : ServerState := ⟨[testClient], [⟨"fake", "http://fake.example.com"⟩]⟩

/-- Cross-client scope fixture: `client_b` and `client_c` list `client_a` as a
trusted peer; `XXX` is trusted by nobody. -/
def crossClientFixtureClients : List Client :=
  [⟨"XXX", "c2VjcmV0", [cbURL], false, []⟩,
   ⟨"client_a", "c2VjcmV0", [], false, []⟩,
   ⟨"client_b", "c2VjcmV0", [], false, ["client_a"]⟩,
   ⟨"client_c", "c2VjcmV0", [], false, ["client_a"]⟩]

/-- Token-handler fixture: the client `XXX` and one pushed, unexpired code. -/
def tokenFixture : TokenServer := ⟨[⟨"XXX", "secret", [cbURL], false, []⟩],
  [⟨"code-2", "sess-1", 100⟩], [], 10⟩

/-- C1: a session key pushed into the store resolves, on a first unexpired `Pop`, to
the session ID it was pushed with; the pop removes the key, so a second `Pop` of the
same key fails with an error and leaves the store unchanged — hence every
subsequent `Pop` of that key fails. -/
theorem c1_single_use_session_key (ks : List KeyEntry) (sk : SessionKey)
    (expiresAt now now2 : Int)
    ( _hfresh : ks.all (fun e => !(e.key == sk.key)) = true)
    (hlive : ¬ expiresAt < now) :
    (popSessionKey (pushSessionKey ks sk expiresAt) sk.key now).1 = .ok sk.sessionID ∧
    (popSessionKey (popSessionKey (pushSessionKey ks sk expiresAt) sk.key now).2 sk.key now2).1
      = .error "session key does not exist" ∧
    (popSessionKey (popSessionKey (pushSessionKey ks sk expiresAt) sk.key now).2 sk.key now2).2
      = (popSessionKey (pushSessionKey ks sk expiresAt) sk.key now).2 := by
  have hfind : (pushSessionKey ks sk expiresAt).find? (fun e => e.key == sk.key)
      = some ⟨sk.key, sk.sessionID, expiresAt⟩ := by
    simp [pushSessionKey]
  have h1 : popSessionKey (pushSessionKey ks sk expiresAt) sk.key now
      = (.ok sk.sessionID,
         (pushSessionKey ks sk expiresAt).filter (fun e' => !(e'.key == sk.key))) := by
    simp [popSessionKey, hfind, hlive]
  have hnone : ((pushSessionKey ks sk expiresAt).filter
      (fun e' => !(e'.key == sk.key))).find? (fun e => e.key == sk.key) = none := by
    rw [List.find?_eq_none]
    intro x hx
    have hmem := List.mem_filter.mp hx
    simpa using hmem.2
  refine ⟨by rw [h1], ?_, ?_⟩
  · rw [h1]
    simp [popSessionKey, hnone]
  · rw [h1]
    simp [popSessionKey, hnone]

/-- Witness for C1 at the test's concrete input: key `"123"`, session `"456"`. -/
theorem c1_witness :
    (popSessionKey (pushSessionKey [] ⟨"123", "456"⟩ 1) "123" 0).1 = .ok "456" ∧
    (popSessionKey (popSessionKey (pushSessionKey [] ⟨"123", "456"⟩ 1) "123" 0).2 "123" 7).1
      = .error "session key does not exist" ∧
    (popSessionKey (popSessionKey (pushSessionKey [] ⟨"123", "456"⟩ 1) "123" 0).2 "123" 7).2
      = (popSessionKey (pushSessionKey [] ⟨"123", "456"⟩ 1) "123" 0).2 :=
  c1_single_use_session_key [] ⟨"123", "456"⟩ 1 0 7 (by decide) (by decide)

/-- C2: a well-formed token-endpoint request (POST, `authorization_code` grant,
non-empty code) whose Basic-Auth client credentials fail authentication is
answered 401 with a fixed error body, for every server state — in particular
regardless of whether the supplied code is valid, and without revealing whether
the code check would also have failed. -/
theorem c2_bad_client_credentials_401 (srv : TokenServer) (req : TokenRequest)
    (hm : req.method = "POST") (hg : req.grantType = "authorization_code")
    (hc : req.code ≠ "") (ha : authenticateClient srv.clients req = none) :
    handleToken srv req = .unauthorized "invalid_client" ∧
    (handleToken srv req).statusCode = 401 := by
  have key : handleToken srv req = .unauthorized "invalid_client" := by
    simp [handleToken, hm, hg, hc, ha]
  exact ⟨key, by rw [key]; rfl⟩

/-- Witness for C2: valid code `"code-2"` but unknown client `"XASD"`. -/
theorem c2_witness :
    handleToken tokenFixture ⟨"POST", true, "XASD", "failSecrete", "authorization_code", "code-2", ""⟩
      = .unauthorized "invalid_client" ∧
    (handleToken tokenFixture
      ⟨"POST", true, "XASD", "failSecrete", "authorization_code", "code-2", ""⟩).statusCode = 401 :=
  c2_bad_client_credentials_401 tokenFixture
    ⟨"POST", true, "XASD", "failSecrete", "authorization_code", "code-2", ""⟩
    rfl rfl (by decide) (by decide)

/-- C9: every disallowed method yields 405: the authorization handler for non-GET,
the token handler for non-POST, and the discovery and keys handlers for non-GET. -/
theorem c9_method_gating (srv : ServerState) (tsrv : TokenServer)
    (areq : AuthRequest) (treq : TokenRequest) (cfg jwks m : String)
    (ha : areq.method ≠ "GET") (ht : treq.method ≠ "POST") (hm : m ≠ "GET") :
    (handleAuth srv areq).statusCode = 405 ∧
    (handleToken tsrv treq).statusCode = 405 ∧
    (handleDiscovery cfg m).statusCode = 405 ∧
    (handleKeys jwks m).statusCode = 405 := by
  refine ⟨?_, ?_, ?_, ?_⟩ <;>
    simp [handleAuth, handleToken, handleDiscovery, handleKeys, ha, ht, hm,
      Response.statusCode]

/-- Witness for C9: POST to the auth endpoint, GET to the token endpoint, PUT to
discovery and keys. -/
theorem c9_witness :
    (handleAuth authFixture ⟨"POST", "", none, "", [], "", ""⟩).statusCode = 405 ∧
    (handleToken tokenFixture ⟨"GET", false, "", "", "", "", ""⟩).statusCode = 405 ∧
    (handleDiscovery "cfg" "PUT").statusCode = 405 ∧
    (handleKeys "jwks" "PUT").statusCode = 405 :=
  c9_method_gating authFixture tokenFixture ⟨"POST", "", none, "", [], "", ""⟩
    ⟨"GET", false, "", "", "", "", ""⟩ "cfg" "jwks" "PUT"
    (by decide) (by decide) (by decide)

/-- C4: an authorization request whose scope set lacks `openid` fails with an
immediate 400 even when the client is known, its redirect URL has been resolved
and the response type is valid — the redirect-back error path is not used. -/
theorem c4_missing_openid_immediate_400 (srv : ServerState) (cli : Client) (ru : GoURL)
    (req : AuthRequest)
    (hm : req.method = "GET")
    (hc : findClient srv req.clientId = some cli)
    (hr : cli.validRedirectURL req.redirectUri = .ok ru)
    (ht : req.responseType = "code")
    (hs : req.scopes.contains "openid" = false) :
    handleAuth srv req = .badRequest "invalid_request" ∧
    (handleAuth srv req).statusCode = 400 ∧
    (handleAuth srv req).isRedirect = false := by
  have key : handleAuth srv req = .badRequest "invalid_request" := by
    have hmem : "openid" ∉ req.scopes := by simpa using hs
    by_cases hid : req.clientId = ""
    · simp [handleAuth, hm, hid]
    · simp [handleAuth, hm, hid, hc, hr, ht, hmem]
  exact ⟨key, by rw [key]; rfl, by rw [key]; rfl⟩

/-- Witness for C4: a resolvable request with scopes `[]`. -/
theorem c4_witness :
    handleAuth authFixture
      ⟨"GET", "client.example.com", some cbURL, "code", [], "", "fake"⟩
      = .badRequest "invalid_request" ∧
    (handleAuth authFixture
      ⟨"GET", "client.example.com", some cbURL, "code", [], "", "fake"⟩).statusCode = 400 ∧
    (handleAuth authFixture
      ⟨"GET", "client.example.com", some cbURL, "code", [], "", "fake"⟩).isRedirect = false :=
  c4_missing_openid_immediate_400 authFixture testClient cbURL
    ⟨"GET", "client.example.com", some cbURL, "code", [], "", "fake"⟩
    rfl (by decide) (by decide) rfl (by decide)

/-- C5: an authorization request with a resolvable redirect URL and a response
type other than `code` (the empty value included) is answered with a 302 redirect
to the resolved URL carrying `error=unsupported_response_type` and the echoed
state, not with a 400. -/
theorem c5_unsupported_response_type_redirects_back (srv : ServerState) (cli : Client)
    (ru : GoURL) (req : AuthRequest)
    (hm : req.method = "GET") (hid : req.clientId ≠ "")
    (hc : findClient srv req.clientId = some cli)
    (hr : cli.validRedirectURL req.redirectUri = .ok ru)
    (ht : req.responseType ≠ "code") :
    handleAuth srv req
      = .redirect ru [("error", "unsupported_response_type"), ("state", req.state)] ∧
    (handleAuth srv req).statusCode = 302 := by
  have key : handleAuth srv req
      = .redirect ru [("error", "unsupported_response_type"), ("state", req.state)] := by
    simp [handleAuth, hm, hid, hc, hr, ht]
  exact ⟨key, by rw [key]; rfl⟩

/-- Witness for C5: `response_type=token` with a valid redirect URL and state. -/
theorem c5_witness :
    handleAuth authFixture
      ⟨"GET", "client.example.com", some cbURL, "token", ["openid"], "st", "fake"⟩
      = .redirect cbURL [("error", "unsupported_response_type"), ("state", "st")] ∧
    (handleAuth authFixture
      ⟨"GET", "client.example.com", some cbURL, "token", ["openid"], "st", "fake"⟩).statusCode
      = 302 :=
  c5_unsupported_response_type_redirects_back authFixture testClient cbURL
    ⟨"GET", "client.example.com", some cbURL, "token", ["openid"], "st", "fake"⟩
    rfl (by decide) (by decide) (by decide) (by decide)

/-- C3: for a non-public client, resolving with no `redirect_uri` returns the
single registered URL exactly when there is exactly one; with a `redirect_uri`
supplied, resolution succeeds exactly on membership in the registered list; and an
authorization request whose redirect URL cannot be resolved is a 400 with no
redirect. -/
theorem c3_redirect_url_resolution (cli : Client) (hpub : cli.public = false) :
    (∀ u, cli.redirectURIs = [u] → cli.validRedirectURL none = .ok u) ∧
    (excIsOk (cli.validRedirectURL none) = true ↔ cli.redirectURIs.length = 1) ∧
    (∀ u, cli.validRedirectURL (some u) = .ok u ↔ u ∈ cli.redirectURIs) ∧
    (∀ srv req, req.method = "GET" → findClient srv req.clientId = some cli →
      excIsOk (cli.validRedirectURL req.redirectUri) = false →
      (handleAuth srv req).statusCode = 400 ∧ (handleAuth srv req).isRedirect = false) := by
  refine ⟨?_, ?_, ?_, ?_⟩
  · intro u hu
    simp [Client.validRedirectURL, hpub, hu]
  · rcases h : cli.redirectURIs with _ | ⟨a, _ | ⟨b, tl⟩⟩ <;>
      simp [Client.validRedirectURL, hpub, h, excIsOk]
  · intro u
    by_cases hmem : u ∈ cli.redirectURIs <;>
      simp [Client.validRedirectURL, hpub, hmem]
  · intro srv req hm hc hbad
    have herr : ∃ e, cli.validRedirectURL req.redirectUri = .error e := by
      cases hv : cli.validRedirectURL req.redirectUri with
      | ok v => rw [hv] at hbad; simp [excIsOk] at hbad
      | error e => exact ⟨e, rfl⟩
    obtain ⟨e, he⟩ := herr
    by_cases hid : req.clientId = ""
    · simp [handleAuth, hm, hid, Response.statusCode, Response.isRedirect]
    · simp [handleAuth, hm, hid, hc, he, Response.statusCode, Response.isRedirect]

/-- Witness for C3: a single-URL client resolves implicitly; a two-URL client
fails with no `redirect_uri`. -/
theorem c3_witness :
    Client.validRedirectURL
      ⟨"a", "s", [⟨"http", "auth.example.com", "", ""⟩], false, []⟩ none
      = .ok ⟨"http", "auth.example.com", "", ""⟩ ∧
    excIsOk (Client.validRedirectURL
      ⟨"a", "s", [⟨"http", "auth.example.com", "", ""⟩,
                  ⟨"http", "auth2.example.com", "", ""⟩], false, []⟩ none) = false := by
  constructor
  · exact (c3_redirect_url_resolution _ rfl).1 _ rfl
  · cases hq : excIsOk (Client.validRedirectURL
      ⟨"a", "s", [⟨"http", "auth.example.com", "", ""⟩,
                  ⟨"http", "auth2.example.com", "", ""⟩], false, []⟩ none) with
    | true => exact absurd ((c3_redirect_url_resolution _ rfl).2.1.mp hq) (by decide)
    | false => rfl

/-- C6 counterexample: the scope list `["openid", "audience:server:client_id:client_a"]`
satisfies the claim's acceptance condition (contains `openid`, every token
recognized or cross-client-prefixed, no duplicate targets), yet scope validation
rejects it for the requesting client `XXX`, which is neither `client_a` itself nor
one of `client_a`'s trusted peers — mirroring the "invalid cross client auth" case
of `TestValidateScopes`. -/
theorem c6_counterexample :
    claimC6ScopeAccept ["openid", "audience:server:client_id:client_a"] = true ∧
    excIsOk (validateScopes crossClientFixtureClients "XXX"
      ["openid", "audience:server:client_id:client_a"]) = false := by decide

/-- C6 (amended): scope validation accepts exactly when `openid` is present, every
token is recognized or cross-client-prefixed, no two cross-client tokens name the
same target, and every target is the requesting client itself or a client listing
the requester as a trusted peer; in particular a duplicated target is rejected
while a client naming itself once is accepted. -/
theorem c6_scope_validation (clients : List Client) (clientID : String)
    (scopes : List String) :
    (excIsOk (validateScopes clients clientID scopes) = true ↔
      (scopes.contains "openid" = true ∧
       scopes.all (fun s => knownScopes.contains s || strHasLead scopeGoogleCrossClient s)
         = true ∧
       hasDup (crossClientTargets scopes) = false ∧
       (crossClientTargets scopes).all (crossClientAllowed clients clientID) = true)) ∧
    excIsOk (validateScopes crossClientFixtureClients "client_a"
      ["openid", "audience:server:client_id:client_a"]) = true ∧
    excIsOk (validateScopes crossClientFixtureClients "client_a"
      ["openid", "audience:server:client_id:client_b",
       "audience:server:client_id:client_b"]) = false := by
  refine ⟨?_, by decide, by decide⟩
  unfold validateScopes
  split_ifs with hA hB hC hD <;> simp_all [excIsOk]
  intro x hx
  by_cases hk : x ∈ knownScopes
  · exact Or.inl hk
  · exact Or.inr (hB x hx hk)

/-- C7: a public client accepts a supplied `redirect_uri` exactly when it is the
out-of-band sentinel or a localhost-loopback URL with no extra path; localhost
with a path appended and non-localhost hosts are rejected; and omitting the
`redirect_uri` fails for a public client with no registered URLs. -/
theorem c7_public_client_redirects (cli : Client) (hpub : cli.public = true) :
    (∀ u, excIsOk (cli.validRedirectURL (some u)) = true ↔
      (u = OOBRedirectURI ∨ isLocalhostRedirectURL u = true)) ∧
    (cli.redirectURIs = [] → excIsOk (cli.validRedirectURL none) = false) ∧
    excIsOk (cli.validRedirectURL (some ⟨"http", "localhost:8080", "/hey_there", ""⟩))
      = false ∧
    excIsOk (cli.validRedirectURL (some ⟨"http", "auth.google.com:8080", "", ""⟩))
      = false := by
  have hiff : ∀ u, excIsOk (cli.validRedirectURL (some u)) = true ↔
      (u = OOBRedirectURI ∨ isLocalhostRedirectURL u = true) := by
    intro u
    by_cases h1 : u = OOBRedirectURI
    · simp [Client.validRedirectURL, hpub, h1, excIsOk]
    · cases h2 : isLocalhostRedirectURL u <;>
        simp [Client.validRedirectURL, hpub, h1, h2, excIsOk]
  refine ⟨hiff, ?_, ?_, ?_⟩
  · intro _h
    simp [Client.validRedirectURL, hpub, excIsOk]
  · cases hq : excIsOk (cli.validRedirectURL
        (some ⟨"http", "localhost:8080", "/hey_there", ""⟩)) with
    | true => exact absurd ((hiff _).mp hq) (by decide)
    | false => rfl
  · cases hq : excIsOk (cli.validRedirectURL
        (some ⟨"http", "auth.google.com:8080", "", ""⟩)) with
    | true => exact absurd ((hiff _).mp hq) (by decide)
    | false => rfl

/-- Witness for C7 at the test's concrete inputs: a public client with no
registered URLs accepts `http://localhost:8080` and the out-of-band sentinel, and
rejects an omitted `redirect_uri`. -/
theorem c7_witness :
    excIsOk (Client.validRedirectURL ⟨"public_client", "s", [], true, []⟩
      (some ⟨"http", "localhost:8080", "", ""⟩)) = true ∧
    excIsOk (Client.validRedirectURL ⟨"public_client", "s", [], true, []⟩
      (some OOBRedirectURI)) = true ∧
    excIsOk (Client.validRedirectURL ⟨"public_client", "s", [], true, []⟩ none) = false := by
  have h := c7_public_client_redirects ⟨"public_client", "s", [], true, []⟩ rfl
  exact ⟨(h.1 _).mpr (Or.inr (by decide)), (h.1 _).mpr (Or.inl rfl), h.2.1 rfl⟩

/-- C8: a stored session whose `ExpiresAt` is strictly before the clock's now is
reported by `SessionRepo.Get` with the very "session does not exist" error that an
absent ID produces, and the stale record is never returned. -/
theorem c8_expired_session_is_not_found (dbase dbase2 : List (String × sessionModel))
    (now : Int) (sessionID sid2 k : String) (sm : sessionModel) (ses : Session)
    (hfind : dbase.find? (fun p => p.1 == sessionID) = some (k, sm))
    (hconv : sm.session = .ok ses)
    (hexp : ses.expiresAt < now)
    (habsent : dbase2.find? (fun p => p.1 == sid2) = none) :
    SessionRepo.get dbase now sessionID = .error "session does not exist" ∧
    SessionRepo.get dbase2 now sid2 = .error "session does not exist" := by
  constructor
  · simp [SessionRepo.get, hfind, hconv, hexp]
  · simp [SessionRepo.get, habsent]

/-- The stored row used by the C8 witness: expires at 6. -/
def c8Row : sessionModel :=
  ⟨"AAA", "identified", 5, 6, "ZZZ", "foo", "http://example.com/callback",
   ⟨"YYY", "Elroy", "elroy@example.com", 6⟩, "local", "", false, "", "openid", none⟩

/-- The session `c8Row` converts to. -/
def c8Session : Session :=
  ⟨"AAA", "identified", 5, 6, "ZZZ", "foo", ⟨"http", "example.com", "/callback", ""⟩,
   ⟨"YYY", "Elroy", "elroy@example.com", 6⟩, "local", "", false, "", ["openid"], none⟩

/-- Witness for C8: at clock instant 10 the row expired at 6 reads as absent. -/
theorem c8_witness :
    SessionRepo.get [("AAA", c8Row)] 10 "AAA" = .error "session does not exist" ∧
    SessionRepo.get [] 10 "BBB" = .error "session does not exist" :=
  c8_expired_session_is_not_found [("AAA", c8Row)] [] 10 "AAA" "BBB" "AAA" c8Row c8Session
    (by decide) (by decide) (by decide) (by decide)

/-- `splitWhen` never produces the empty list of segments. -/
theorem splitWhen_ne_nil (p : Char → Bool) (l : List Char) : splitWhen p l ≠ [] := by
  cases l with
  | nil => simp [splitWhen]
  | cons c cs =>
    simp only [splitWhen]
    split
    · simp
    · split <;> simp

/-- A chunk containing no separator character splits into itself alone. -/
theorem splitWhen_no_sep (p : Char → Bool) (t : List Char)
    (h : ∀ c ∈ t, p c = false) : splitWhen p t = [t] := by
  induction t with
  | nil => rfl
  | cons c cs ih =>
    have hc : p c = false := h c (by simp)
    have ih' := ih (fun x hx => h x (by simp [hx]))
    simp [splitWhen, hc, ih']

/-- Prepending a separator-free chunk extends the first segment of the split. -/
theorem splitWhen_append (p : Char → Bool) (t rest r : List Char) (rs : List (List Char))
    (h : ∀ c ∈ t, p c = false) (hrest : splitWhen p rest = r :: rs) :
    splitWhen p (t ++ rest) = (t ++ r) :: rs := by
  induction t with
  | nil => simpa using hrest
  | cons c cs ih =>
    have hc : p c = false := h c (by simp)
    have ih' := ih (fun x hx => h x (by simp [hx]))
    simp [splitWhen, hc, ih']

/-- Splitting a space-join of non-empty whitespace-free chunks and dropping empty
segments recovers the chunks (`strings.Fields` inverts `strings.Join` on them). -/
theorem fields_of_join (ts : List (List Char))
    (h : ∀ t ∈ ts, t ≠ [] ∧ ∀ c ∈ t, c.isWhitespace = false) :
    (splitWhen (fun c => c.isWhitespace) (joinWithSpace ts)).filter (fun t => !t.isEmpty)
      = ts := by
  induction ts with
  | nil => rfl
  | cons t ts ih =>
    have ht := h t (by simp)
    have htne : t.isEmpty = false := by
      cases t with
      | nil => exact absurd rfl ht.1
      | cons a l => rfl
    cases ts with
    | nil =>
      rw [show joinWithSpace [t] = t from rfl, splitWhen_no_sep _ t ht.2]
      simp [List.filter, htne]
    | cons t2 ts2 =>
      have ihrec := ih (fun x hx => h x (by simp [hx]))
      cases hsp : splitWhen (fun c => c.isWhitespace) (joinWithSpace (t2 :: ts2)) with
      | nil => exact absurd hsp (splitWhen_ne_nil _ _)
      | cons r rs =>
        have hsps : splitWhen (fun c => c.isWhitespace)
            ( ' ' :: joinWithSpace (t2 :: ts2)) = [] :: r :: rs := by
          rw [show splitWhen (fun c => c.isWhitespace) ( ' ' :: joinWithSpace (t2 :: ts2))
              = [] :: splitWhen (fun c => c.isWhitespace) (joinWithSpace (t2 :: ts2)) from by
            simp [splitWhen], hsp]
        have happ := splitWhen_append (fun c => c.isWhitespace) t
          ( ' ' :: joinWithSpace (t2 :: ts2)) [] (r :: rs) ht.2 hsps
        rw [show joinWithSpace (t :: t2 :: ts2) = t ++ ' ' :: joinWithSpace (t2 :: ts2)
            from rfl, happ]
        rw [hsp] at ihrec
        rw [List.append_nil]
        rw [show List.filter (fun t => !t.isEmpty) (t :: r :: rs)
            = t :: List.filter (fun t => !t.isEmpty) (r :: rs) from by
          simp [List.filter_cons, htne]]
        rw [ihrec]

/-- `strings.Fields` inverts `strings.Join " "` on scope lists whose tokens are
non-empty and whitespace-free. -/
theorem stringsFields_stringsJoin (scope : List String)
    (h : ∀ t ∈ scope, t ≠ "" ∧ ∀ c ∈ t.data, c.isWhitespace = false) :
    stringsFields (stringsJoin scope) = scope := by
  unfold stringsFields stringsJoin
  rw [show (charsToStr (joinWithSpace (scope.map String.data))).data
      = joinWithSpace (scope.map String.data) from rfl]
  rw [fields_of_join (scope.map String.data) ?hh]
  case hh =>
    intro t htmem
    obtain ⟨s, hs, rfl⟩ := List.mem_map.mp htmem
    refine ⟨?_, (h s hs).2⟩
    intro hnil
    apply (h s hs).1
    cases s with
    | mk l => cases hnil; rfl
  rw [List.map_map]
  rw [show charsToStr ∘ String.data = id from funext (fun s => rfl), List.map_id]

/-- Storing a time column (`0` for the zero instant, else Unix seconds) and
reading it back (`0` restores the zero instant) is lossless away from the one
instant whose Unix-second value is `0`. -/
theorem time_column_roundtrip (t : Int) (h : t ≠ 0) :
    (if (if t = goZeroTimeUnix then 0 else t) ≠ 0 then (if t = goZeroTimeUnix then 0 else t)
     else goZeroTimeUnix) = t := by
  by_cases hz : t = goZeroTimeUnix
  · subst hz
    simp
  · simp [hz, h]

/-- The session refuting C10 as stated: it satisfies every hypothesis of the claim
(its redirect URL reparses to itself, its identity marshals, its times are
non-zero whole-second instants), but its scope list holds the empty token. -/
def c10Bad : Session :=
  ⟨"AAA", "identified", 5, 6, "ZZZ", "foo", ⟨"http", "example.com", "/callback", ""⟩,
   ⟨"YYY", "Elroy", "elroy@example.com", 6⟩, "local", "", false, "", [""], none⟩

/-- C10 counterexample: `c10Bad` meets the claim's hypotheses, yet the
`newSessionModel`/`session()` round trip does not return it — space-joining the
scope list `[""]` yields the column `""`, which `strings.Fields` reads back as
`[]`. -/
theorem c10_counterexample :
    parseURL (urlString c10Bad.redirectURL) = some c10Bad.redirectURL ∧
    c10Bad.createdAt ≠ 0 ∧ c10Bad.expiresAt ≠ 0 ∧
    (newSessionModel c10Bad).session ≠ .ok c10Bad := by decide

/-- C10 (amended): for every session whose redirect URL reparses to itself, whose
times are non-zero (in Unix seconds), and whose scope tokens are each non-empty
and whitespace-free, converting with `newSessionModel` and back with
`sessionModel.session` returns the original session, all fields preserved. -/
theorem c10_session_roundtrip (s : Session)
    (hurl : parseURL (urlString s.redirectURL) = some s.redirectURL)
    (hcreated : s.createdAt ≠ 0) (hexpires : s.expiresAt ≠ 0)
    (hscope : ∀ t ∈ s.scope, t ≠ "" ∧ ∀ c ∈ t.data, c.isWhitespace = false) :
    (newSessionModel s).session = .ok s := by
  obtain ⟨sid, st, cAt, eAt, cid, cst, ru, ident, conn, uid, reg, non, sc, gr⟩ := s
  simp only [newSessionModel, sessionModel.session] at hurl ⊢
  rw [hurl]
  simp only [Except.ok.injEq, Session.mk.injEq, and_true, true_and, eq_self_iff_true]
  exact ⟨time_column_roundtrip cAt hcreated, time_column_roundtrip eAt hexpires,
         stringsFields_stringsJoin sc hscope⟩

/-- The session used by the C10 witness. -/
def c10Good : Session :=
  ⟨"AAA", "identified", 5, 6, "ZZZ", "foo", ⟨"http", "example.com", "/callback", ""⟩,
   ⟨"YYY", "Elroy", "elroy@example.com", 6⟩, "local", "", false, "n", ["openid", "profile"],
   some ["g1"]⟩

/-- Witness for the amended C10 at a concrete session. -/
theorem c10_witness : (newSessionModel c10Good).session = .ok c10Good :=
  c10_session_roundtrip c10Good (by decide) (by decide) (by decide) (by decide)
